import Mathlib

/-!
Verification of the rustlox interpreter (a tree-walking Lox interpreter in
Rust) against its natural-language specification.  The Rust sources are
shallowly embedded: `token.rs` and `scanner.rs` as pure functions over
`List Char`, the AST (`ast.rs`), the callable and class model
(`callable.rs`, `class.rs`), the environment chain (`environment.rs`) and
the evaluator (`interpreter.rs`) as a fuel-indexed state-passing
interpreter, and the driver logic of `lib.rs` as a pure classification
function.  Machine floats (`f64`) are modelled by `Int` for number values
and by the source lexeme for number literals; no theorem below depends on
numeric precision, rounding or NaN behaviour.  Reference-counted pointers
(`Rc`) are modelled by indices into explicit stores, so `Rc::ptr_eq`
becomes index equality and each allocation yields a fresh index.  Rust
panics (`unwrap` on a missing binding, `unreachable!`) and fuel exhaustion
are both modelled by `Option.none`: theorems quantify over completed
(`some`) executions.
-/

namespace Rustlox

/-! ## token.rs -/

/-- `TokenType` from `token.rs`.  `String(String)` is embedded as `Str`
(to avoid clashing with Lean's `String`), and `Number(f64)` carries the
source lexeme in place of the parsed double. -/
inductive TokenType where
  | LeftParen | RightParen | LeftBrace | RightBrace
  | Comma | Dot | Minus | Plus | Slash | Percent | Star | Semicolon
  | Question | Colon
  | Bang | BangEqual | Equal | EqualEqual
  | Greater | GreaterEqual | Less | LessEqual
  | Identifier
  | Str (literal : String)
  | Number (literal : String)
  | And | Class | Else | False | Fun | For | If | Nil | Or | Print
  | Return | Super | This | True | Var | While
  | EOF
  deriving DecidableEq, Repr

/-- `Token` from `token.rs`: kind, lexeme, 1-based line, and the `id`
assigned at scan time (`Scanner::add_token` passes `self.current`, the
byte offset just past the token). -/
structure Token where
  token_type : TokenType
  lexeme : String
  line : Nat
  id : Nat
  deriving DecidableEq, Repr

/-! ## scanner.rs -/

/-- The reserved-word table (`KEYWORDS` in `scanner.rs`). -/
def keywordLookup (s : String) : Option TokenType :=
  if s = "and" then some .And
  else if s = "class" then some .Class
  else if s = "else" then some .Else
  else if s = "false" then some .False
  else if s = "for" then some .For
  else if s = "fun" then some .Fun
  else if s = "if" then some .If
  else if s = "nil" then some .Nil
  else if s = "or" then some .Or
  else if s = "print" then some .Print
  else if s = "return" then some .Return
  else if s = "super" then some .Super
  else if s = "this" then some .This
  else if s = "true" then some .True
  else if s = "var" then some .Var
  else if s = "while" then some .While
  else none

/-- `Scanner::is_alpha`. -/
def isAlphaCh (c : Char) : Bool := c.isAlpha && c.toNat < 128 || c = '_'

/-- `Scanner::is_alphanumeric`. -/
def isAlphanumericCh (c : Char) : Bool := c.isAlphanum && c.toNat < 128 || c = '_'

/-- Byte length of a character sequence (`len_utf8` accumulated, as the
scanner's `current` cursor does). -/
def bytes (cs : List Char) : Nat := (cs.map Char.utf8Size).sum

/-- Splits off the longest prefix satisfying `p` (the scanner's
`while p(peek) { advance() }` loops). -/
def spanCh (p : Char → Bool) : List Char → List Char × List Char
  | [] => ([], [])
  | c :: r =>
      if p c then
        let (a, b) := spanCh p r
        (c :: a, b)
      else ([], c :: r)

/-- The depth adjustment made by one iteration of
`Scanner::block_comment`: `comment_level += 1` when the two peeked
characters are `/*`, `comment_level -= 1` when they are `*/`. -/
def commentStep (c pn : Char) (level : Nat) : Nat :=
  let l1 := if c == '/' && pn == '*' then level + 1 else level
  if c == '*' && pn == '/' then l1 - 1 else l1

/-- `Scanner::block_comment`, entered just after the opening `/*` with
depth 1.  Returns (consumed characters, remaining characters, line,
final depth); the caller reports "Unterminated block comment." iff the
final depth is nonzero.  Mirrors the source exactly: both lookahead
characters are peeked, the depth is adjusted, and on reaching depth 0 the
two closing characters are consumed; otherwise a single character is
consumed (newlines bump the line counter). -/
def blockCommentAux : List Char → Nat → Nat → (List Char × List Char × Nat × Nat)
  | [], line, level => ([], [], line, level)
  | c :: rest, line, level =>
      let pn := rest.headD (Char.ofNat 0)
      let l2 := commentStep c pn level
      if l2 = 0 then (c :: [pn], rest.tail, line, 0)
      else
        let line1 := if c == '\n' then line + 1 else line
        let res := blockCommentAux rest line1 l2
        (c :: res.1, res.2.1, res.2.2.1, res.2.2.2)

/-- Result of scanning one lexeme starting at character `c`
(`Scanner::scan_token` after the initial `advance`): the characters
consumed beyond `c`, the remaining input, the updated line counter, an
emitted token kind and lexeme if any, and whether a lexical error was
reported. -/
structure LexRes where
  consumed : List Char
  rest : List Char
  line : Nat
  tok : Option (TokenType × String)
  err : Bool

/-- One step of `Scanner::scan_token` after the initial `advance` has
produced `c`; `r` is the remaining input and `line` the current line. -/
def lexOne (c : Char) (r : List Char) (line : Nat) : LexRes :=
  match c with
  | '(' => ⟨[], r, line, some (.LeftParen, "("), false⟩
  | ')' => ⟨[], r, line, some (.RightParen, ")"), false⟩
  | '{' => ⟨[], r, line, some (.LeftBrace, "\x7b"), false⟩
  | '}' => ⟨[], r, line, some (.RightBrace, "\x7d"), false⟩
  | ',' => ⟨[], r, line, some (.Comma, ","), false⟩
  | '.' => ⟨[], r, line, some (.Dot, "."), false⟩
  | '-' => ⟨[], r, line, some (.Minus, "-"), false⟩
  | '+' => ⟨[], r, line, some (.Plus, "+"), false⟩
  | ';' => ⟨[], r, line, some (.Semicolon, ";"), false⟩
  | '*' => ⟨[], r, line, some (.Star, "*"), false⟩
  | '%' => ⟨[], r, line, some (.Percent, "%"), false⟩
  | '?' => ⟨[], r, line, some (.Question, "?"), false⟩
  | ':' => ⟨[], r, line, some (.Colon, ":"), false⟩
  | '!' =>
      match r with
      | '=' :: r2 => ⟨['='], r2, line, some (.BangEqual, "!="), false⟩
      | _ => ⟨[], r, line, some (.Bang, "!"), false⟩
  | '=' =>
      match r with
      | '=' :: r2 => ⟨['='], r2, line, some (.EqualEqual, "=="), false⟩
      | _ => ⟨[], r, line, some (.Equal, "="), false⟩
  | '<' =>
      match r with
      | '=' :: r2 => ⟨['='], r2, line, some (.LessEqual, "<="), false⟩
      | _ => ⟨[], r, line, some (.Less, "<"), false⟩
  | '>' =>
      match r with
      | '=' :: r2 => ⟨['='], r2, line, some (.GreaterEqual, ">="), false⟩
      | _ => ⟨[], r, line, some (.Greater, ">"), false⟩
  | '/' =>
      match r with
      | '/' :: r2 =>
          let (taken, rest1) := spanCh (fun ch => ch != '\n') r2
          ⟨'/' :: taken, rest1, line, none, false⟩
      | '*' :: r2 =>
          let res := blockCommentAux r2 line 1
          ⟨'*' :: res.1, res.2.1, res.2.2.1, none, !(decide (res.2.2.2 = 0))⟩
      | _ => ⟨[], r, line, some (.Slash, "/"), false⟩
  | ' ' => ⟨[], r, line, none, false⟩
  | '\r' => ⟨[], r, line, none, false⟩
  | '\t' => ⟨[], r, line, none, false⟩
  | '\n' => ⟨[], r, line + 1, none, false⟩
  | '"' =>
      let (content, rest1) := spanCh (fun ch => ch != '"') r
      let line1 := line + content.countP (fun ch => ch == '\n')
      match rest1 with
      | [] => ⟨content, [], line1, none, true⟩
      | _ :: r2 =>
          ⟨content ++ ['"'], r2, line1,
            some (.Str content.asString, ('"' :: (content ++ ['"'])).asString), false⟩
  | c =>
      if c.isDigit then
        let (ds, rest1) := spanCh Char.isDigit r
        match rest1 with
        | '.' :: d :: r2 =>
            if d.isDigit then
              let (ds2, rest2) := spanCh Char.isDigit (d :: r2)
              let lex := (c :: ds) ++ '.' :: ds2
              ⟨ds ++ '.' :: ds2, rest2, line, some (.Number lex.asString, lex.asString), false⟩
            else
              let lex := c :: ds
              ⟨ds, '.' :: d :: r2, line, some (.Number lex.asString, lex.asString), false⟩
        | _ =>
            let lex := c :: ds
            ⟨ds, rest1, line, some (.Number lex.asString, lex.asString), false⟩
      else if isAlphaCh c then
        let (tk, rest1) := spanCh isAlphanumericCh r
        let lex := (c :: tk).asString
        ⟨tk, rest1, line, some ((keywordLookup lex).getD .Identifier, lex), false⟩
      else
        ⟨[], r, line, none, true⟩

/-- Scanner state: remaining input, byte cursor `current`, line counter,
emitted tokens, and the lexical-error flag accumulated by
`Scanner::scan_tokens`. -/
structure ScanState where
  rest : List Char
  current : Nat
  line : Nat
  tokens : List Token
  hadError : Bool

/-- One iteration of the `scan_tokens` loop: `advance` the first
character, run `scan_token`'s dispatch (`lexOne`), push the token (if
any) with `id = current` at emission time, and accumulate the error
flag. -/
def scanTokenStep (st : ScanState) : ScanState :=
  match st.rest with
  | [] => st
  | c :: r =>
      let res := lexOne c r st.line
      let cur := st.current + c.utf8Size + bytes res.consumed
      { rest := res.rest
        current := cur
        line := res.line
        tokens := st.tokens ++
          (match res.tok with
           | some (tt, lex) => [⟨tt, lex, res.line, cur⟩]
           | none => [])
        hadError := st.hadError || res.err }

/-- The `while !self.is_at_end()` loop of `scan_tokens`, fuelled.  Each
step consumes at least one character, so fuel `source.length` reaches the
end of input. -/
def scanLoop : Nat → ScanState → ScanState
  | 0, st => st
  | fuel + 1, st =>
      match st.rest with
      | [] => st
      | _ => scanLoop fuel (scanTokenStep st)

/-- `Scanner::scan_tokens`: runs the loop and appends the end-of-file
token, whose `id` is the final value of `current`. -/
def scanTokens (source : List Char) : List Token × Bool :=
  let st := scanLoop source.length ⟨source, 0, 1, [], false⟩
  (st.tokens ++ [⟨.EOF, "", st.line, st.current⟩], st.hadError)

/-- Claim-side depth counter for C7, transcribing the specification's
words: a depth counter is incremented at each `/*` and decremented at
each `*/` (with the scanner's one-character stepping and two-character
lookahead); the comment is closed iff the counter reaches zero before
end-of-input. -/
def nestedCommentClosed : List Char → Nat → Bool
  | [], _ => false
  | c :: rest, d =>
      let d2 := commentStep c (rest.headD (Char.ofNat 0)) d
      if d2 = 0 then true else nestedCommentClosed rest d2

/-! ## ast.rs and callable.rs: the AST and runtime values

`Rc<RefCell<LoxInstance>>` is modelled by an index into the instance
store, `Rc<LoxClass>` by an index into the class store, and
`Rc<RefCell<Environment>>` by an index into the environment store, so
`Rc::ptr_eq` is index equality and a fresh allocation yields a fresh
index.  The `call_impl` function pointer of a native callable is
modelled by a tag (`clock` is the only native). -/

/-- Tag standing in for the `call_impl` function pointer of
`LoxCallable::LoxNative`; `clock` is the only native defined
(`Interpreter::new`). -/
inductive NativeTag where
  | clock
  deriving DecidableEq, Repr

mutual

/-- `Expr` from `ast.rs` (earlier revision: no `Super` variant; the
later parser revision's `Expr::Super` is treated separately, see
`visitSuper`).  `Variable` is embedded as `var`. -/
inductive Expr where
  | ternary (condition then_branch else_branch : Expr)
  | binary (left : Expr) (operator : Token) (right : Expr)
  | grouping (e : Expr)
  | literal (value : Object)
  | unary (operator : Token) (right : Expr)
  | var (name : Token)
  | assign (name : Token) (value : Expr)
  | logical (left : Expr) (operator : Token) (right : Expr)
  | call (callee : Expr) (paren : Token) (arguments : List Expr)
  | get (object : Expr) (name : Token)
  | set (object : Expr) (name : Token) (value : Expr)
  | this (keyword : Token)
  | lambda (params : List Token) (body : List Stmt)

/-- `Stmt` from `ast.rs` (earlier revision: `Class` has no superclass
field).  `If`, `While`, `Return` and `Class` are embedded as `ifStmt`,
`whileStmt`, `returnStmt` and `classStmt`. -/
inductive Stmt where
  | expression (e : Expr)
  | print (e : Expr)
  | var (name : Token) (initializer : Option Expr)
  | block (stmts : List Stmt)
  | ifStmt (condition : Expr) (then_branch : Stmt) (else_branch : Option Stmt)
  | whileStmt (condition : Expr) (body : Stmt)
  | function (name : Token) (definition : Expr)
  | returnStmt (keyword : Token) (value : Option Expr)
  | classStmt (name : Token) (methods : List Stmt)

/-- `Object` from `ast.rs`.  `Number(f64)` is modelled with `Int`
(no verified claim depends on numeric precision, rounding or NaN);
`Instance(Rc<RefCell<LoxInstance>>)` is embedded as `inst` holding the
instance-store index. -/
inductive Object where
  | string (s : String)
  | number (n : Int)
  | boolean (b : Bool)
  | nil
  | callable (c : LoxCallable)
  | inst (id : Nat)

/-- `LoxCallable` from `callable.rs`.  `closure` and `class` hold store
indices; `is_initializer` is embedded as `isInitializer`. -/
inductive LoxCallable where
  | LoxNative (call_impl : NativeTag) (arity : Nat)
  | LoxFunction (name : Option Token) (definition : Expr) (closure : Nat)
      (isInitializer : Bool)
  | LoxClass (classId : Nat)

end

/-- `LoxClass` from `class.rs`: name, optional superclass (a store
index), and the method map (association list standing in for
`HashMap`). -/
structure LoxClassData where
  name : String
  superclass : Option Nat
  methods : List (String × LoxCallable)

/-- `LoxInstance` from `class.rs`: its class (a store index) and the
mutable field map. -/
structure LoxInstanceData where
  classId : Nat
  fields : List (String × Object)

/-- `Environment` from `environment.rs`: optional enclosing environment
(a store index) and the value map. -/
structure EnvData where
  enclosing : Option Nat
  values : List (String × Object)

/-- Association-list lookup standing in for `HashMap::get`. -/
def lookupStr {α : Type} : List (String × α) → String → Option α
  | [], _ => none
  | (k, v) :: r, key => if k = key then some v else lookupStr r key

/-- Association-list insert-or-overwrite standing in for
`HashMap::insert`. -/
def insertStr {α : Type} : List (String × α) → String → α → List (String × α)
  | [], key, v => [(key, v)]
  | (k, w) :: r, key, v =>
      if k = key then (k, v) :: r else (k, w) :: insertStr r key v

/-- `Error` from `error.rs`.  `Return(Object)` is the internal
control-flow signal used to propagate `return`. -/
inductive Error where
  | Lexical
  | Syntax
  | Semantic
  | Runtime (token : Token) (message : String)
  | Return (value : Object)

/-- `LoxCallable::equals` from `callable.rs`: only two `LoxClass`
values compare, by `Rc::ptr_eq` (here: store-index equality); every
other combination is `false`. -/
def LoxCallable.equals : LoxCallable → LoxCallable → Bool
  | .LoxClass a, .LoxClass b => a = b
  | _, _ => false

/-- `Object::equals` from `ast.rs`: structural on `Boolean`, `Number`
and `String`, `Nil == Nil` is true, `Callable` defers to
`LoxCallable::equals`, and every other combination — including two
`Instance` values — falls into the catch-all `_ => false` arm. -/
def Object.equals : Object → Object → Bool
  | .boolean lhs, .boolean rhs => lhs = rhs
  | .number lhs, .number rhs => lhs = rhs
  | .string lhs, .string rhs => lhs = rhs
  | .nil, .nil => true
  | .callable lhs, .callable rhs => lhs.equals rhs
  | _, _ => false

/-- `Interpreter::is_truthy`. -/
def isTruthy : Object → Bool
  | .nil => false
  | .boolean value => value
  | _ => true

/-- The interpreter state (`Interpreter` from `interpreter.rs` plus the
stores standing in for the `Rc` heap): environment store, instance
store, class store, the `globals` and current `environment` indices, the
resolver side table `locals` (keyed by full token equality, as the
derived `PartialEq` on `Token` is), and the text printed so far. -/
structure InterpState where
  envs : List EnvData
  instances : List LoxInstanceData
  classes : List LoxClassData
  globals : Nat
  environment : Nat
  locals : List (Token × Nat)
  output : List String

/-! ## environment.rs -/

/-- `Environment::define`: insert into the environment's own map. -/
def envDefine (envs : List EnvData) (envId : Nat) (name : String)
    (value : Object) : List EnvData :=
  match envs.get? envId with
  | none => envs
  | some e => envs.set envId ⟨e.enclosing, insertStr e.values name value⟩

/-- `Environment::ancestor`: follow `enclosing` for `distance` hops
(`distance ≥ 1` at every call site, as in the source); a missing
ancestor is the source's `expect` panic, modelled as `none`. -/
def ancestorId (envs : List EnvData) : Nat → Nat → Option Nat
  | envId, 0 => some envId
  | envId, d + 1 => ((envs.get? envId).bind (fun e => e.enclosing)).bind
      (fun up => ancestorId envs up d)

/-- `Environment::get_at`: read the name at `distance` hops; the
source's `unwrap` panic (absent binding) is modelled as `none`. -/
def envGetAt (envs : List EnvData) (envId distance : Nat) (name : String) :
    Option Object :=
  if distance = 0 then (envs.get? envId).bind (fun e => lookupStr e.values name)
  else (ancestorId envs envId distance).bind
    (fun a => (envs.get? a).bind (fun e => lookupStr e.values name))

/-- `Environment::get`: look up in the own map, else recurse into the
enclosing environment, else the runtime error `Undefined variable`.
The recursion is fuelled by the store size (environment chains are
acyclic by construction); exhausted fuel is `none`. -/
def envGet (envs : List EnvData) : Nat → Nat → Token → Option (Except Error Object)
  | 0, _, _ => none
  | fuel + 1, envId, name =>
      match envs.get? envId with
      | none => none
      | some e =>
          match lookupStr e.values name.lexeme with
          | some value => some (.ok value)
          | none =>
              match e.enclosing with
              | some up => envGet envs fuel up name
              | none => some (.error (.Runtime name
                  ("Undefined variable '" ++ name.lexeme ++ "'.")))

/-- `Environment::assign`: overwrite in the first environment of the
chain that contains the key, else the runtime error
`Undefined variable`. -/
def envAssign (envs : List EnvData) : Nat → Nat → Token → Object →
    Option (List EnvData × Except Error Unit)
  | 0, _, _, _ => none
  | fuel + 1, envId, name, value =>
      match envs.get? envId with
      | none => none
      | some e =>
          match lookupStr e.values name.lexeme with
          | some _ => some (envs.set envId ⟨e.enclosing, insertStr e.values name.lexeme value⟩, .ok ())
          | none =>
              match e.enclosing with
              | some up => envAssign envs fuel up name value
              | none => some (envs, .error (.Runtime name
                  ("Undefined variable '" ++ name.lexeme ++ "'.")))

/-- `Environment::assign_at`: assign in the own map at distance 0, else
in the ancestor at `distance` hops (which itself walks outward, as
`Environment::assign` does). -/
def envAssignAt (envs : List EnvData) (envId distance : Nat) (name : Token)
    (value : Object) : Option (List EnvData × Except Error Unit) :=
  if distance = 0 then envAssign envs (envs.length + 1) envId name value
  else (ancestorId envs envId distance).bind
    (fun a => envAssign envs (envs.length + 1) a name value)

/-! ## class.rs -/

/-- `LoxClass::find_method`: the own method map first, then the
superclass chain.  Fuelled by the class-store size (superclass chains
are acyclic by construction). -/
def findMethod (classes : List LoxClassData) : Nat → Nat → String → Option LoxCallable
  | 0, _, _ => none
  | fuel + 1, cid, name =>
      match classes.get? cid with
      | none => none
      | some c =>
          match lookupStr c.methods name with
          | some m => some m
          | none =>
              match c.superclass with
              | some sid => findMethod classes fuel sid name
              | none => none

/-! ## callable.rs: bind, arity, natives -/

/-- `LoxCallable::bind`: a fresh child environment of the method's
closure defining `this` to the instance; the `_ => unreachable!()` arm
is modelled as `none`. -/
def bindFn (st : InterpState) (c : LoxCallable) (instObj : Object) :
    Option (InterpState × LoxCallable) :=
  match c with
  | .LoxFunction name defn closure isInit =>
      let envId := st.envs.length
      some ({ st with envs := st.envs ++ [⟨some closure, [("this", instObj)]⟩] },
        .LoxFunction name defn envId isInit)
  | _ => none

/-- The behaviour of the only native (`clock`); the wall clock is
modelled as the constant 0 (no verified claim depends on it). -/
def nativeImpl : NativeTag → List Object → Object
  | .clock, _ => .number 0

/-- `LoxCallable::arity`: natives carry it, functions count their
parameters (`unreachable!()` for a non-lambda definition is `none`),
classes take the arity of `init` if present, else 0. -/
def arityFn (classes : List LoxClassData) : Nat → LoxCallable → Option Nat
  | _, .LoxNative _ ar => some ar
  | _, .LoxFunction _ defn _ _ =>
      match defn with
      | .lambda params _ => some params.length
      | _ => none
  | 0, .LoxClass _ => none
  | fuel + 1, .LoxClass cid =>
      match findMethod classes (classes.length + 1) cid "init" with
      | some i => arityFn classes fuel i
      | none => some 0

/-! ## class.rs: instance access -/

/-- `LoxInstance::get`: a field if present, else the method found on the
class bound to the instance, else the runtime error
`Undefined property`. -/
def instanceGet (st : InterpState) (instId : Nat) (name : Token) :
    Option (InterpState × Except Error Object) :=
  match st.instances.get? instId with
  | none => none
  | some idata =>
      match lookupStr idata.fields name.lexeme with
      | some field => some (st, .ok field)
      | none =>
          match findMethod st.classes (st.classes.length + 1) idata.classId name.lexeme with
          | some m =>
              (bindFn st m (.inst instId)).map (fun p => (p.1, .ok (.callable p.2)))
          | none => some (st, .error (.Runtime name
              ("Undefined property '" ++ name.lexeme ++ "'.")))

/-- `LoxInstance::set`: insert or overwrite the field. -/
def instanceSet (st : InterpState) (instId : Nat) (name : String)
    (value : Object) : InterpState :=
  match st.instances.get? instId with
  | none => st
  | some idata =>
      { st with
          instances := st.instances.set instId
            ⟨idata.classId, insertStr idata.fields name value⟩ }

/-- Display form of an object (`impl fmt::Display for Object`); the
number format is modelled by `Int.repr` (no verified claim depends on
the numeric display convention). -/
def displayObject (st : InterpState) : Object → String
  | .string val => val
  | .number val => toString val
  | .boolean val => toString val
  | .nil => "nil"
  | .callable (.LoxNative _ _) => "<native fn>"
  | .callable (.LoxFunction name _ _ _) =>
      match name with
      | some funcName => "<fn " ++ funcName.lexeme ++ ">"
      | none => "<fn>"
  | .callable (.LoxClass cid) =>
      match st.classes.get? cid with
      | some c => c.name
      | none => ""
  | .inst iid =>
      match st.instances.get? iid with
      | some idata =>
          match st.classes.get? idata.classId with
          | some c => c.name ++ " instance"
          | none => ""
      | none => ""

/-- `Interpreter::number_operand_err`. -/
def numberOperandErr (operator : Token) : Except Error Object :=
  .error (.Runtime operator "Operands must be numbers.")

/-- The resolver side table lookup (`self.locals.get(name)`), keyed by
full token equality as the derived `PartialEq` on `Token` is. -/
def lookupLocals (locals : List (Token × Nat)) (t : Token) : Option Nat :=
  (locals.find? (fun p => p.1 = t)).map (fun p => p.2)

/-- `Interpreter::look_up_variable`. -/
def lookUpVariable (st : InterpState) (name : Token) : Option (Except Error Object) :=
  match lookupLocals st.locals name with
  | some distance => (envGetAt st.envs st.environment distance name.lexeme).map .ok
  | none => envGet st.envs (st.envs.length + 1) st.globals name

/-! ## interpreter.rs: the evaluator

A fuel-indexed mutual recursion; `none` is fuel exhaustion (the source
loops or recurses further) or a Rust panic.  On `some (st, r)` the run
completed with final state `st` and result `r`. -/

mutual

/-- `Interpreter::visit_expr`. -/
def visitExpr : Nat → InterpState → Expr → Option (InterpState × Except Error Object)
  | 0, _, _ => none
  | fuel + 1, st, e =>
      match e with
      | .literal value => some (st, .ok value)
      | .grouping expression => visitExpr fuel st expression
      | .unary operator right =>
          match visitExpr fuel st right with
          | none => none
          | some (st1, .error err) => some (st1, .error err)
          | some (st1, .ok rv) =>
              match operator.token_type with
              | .Minus =>
                  match rv with
                  | .number value => some (st1, .ok (.number (-value)))
                  | _ => some (st1, numberOperandErr operator)
              | .Bang => some (st1, .ok (.boolean (!isTruthy rv)))
              | _ => none
      | .binary left operator right =>
          match visitExpr fuel st left with
          | none => none
          | some (st1, .error err) => some (st1, .error err)
          | some (st1, .ok lv) =>
              match visitExpr fuel st1 right with
              | none => none
              | some (st2, .error err) => some (st2, .error err)
              | some (st2, .ok rv) =>
                  match operator.token_type with
                  | .Minus =>
                      match lv, rv with
                      | .number lhs, .number rhs => some (st2, .ok (.number (lhs - rhs)))
                      | _, _ => some (st2, numberOperandErr operator)
                  | .Plus =>
                      match lv, rv with
                      | .number lhs, .number rhs => some (st2, .ok (.number (lhs + rhs)))
                      | .string lhs, .string rhs => some (st2, .ok (.string (lhs ++ rhs)))
                      | _, _ => some (st2, .error (.Runtime operator
                          "Operands must be two numbers or two strings."))
                  | .Slash =>
                      match lv, rv with
                      | .number lhs, .number rhs => some (st2, .ok (.number (lhs / rhs)))
                      | _, _ => some (st2, numberOperandErr operator)
                  | .Star =>
                      match lv, rv with
                      | .number lhs, .number rhs => some (st2, .ok (.number (lhs * rhs)))
                      | _, _ => some (st2, numberOperandErr operator)
                  | .Percent =>
                      match lv, rv with
                      | .number lhs, .number rhs => some (st2, .ok (.number (lhs % rhs)))
                      | _, _ => some (st2, numberOperandErr operator)
                  | .Greater =>
                      match lv, rv with
                      | .number lhs, .number rhs => some (st2, .ok (.boolean (rhs < lhs)))
                      | _, _ => some (st2, numberOperandErr operator)
                  | .GreaterEqual =>
                      match lv, rv with
                      | .number lhs, .number rhs => some (st2, .ok (.boolean (rhs ≤ lhs)))
                      | _, _ => some (st2, numberOperandErr operator)
                  | .Less =>
                      match lv, rv with
                      | .number lhs, .number rhs => some (st2, .ok (.boolean (lhs < rhs)))
                      | _, _ => some (st2, numberOperandErr operator)
                  | .LessEqual =>
                      match lv, rv with
                      | .number lhs, .number rhs => some (st2, .ok (.boolean (lhs ≤ rhs)))
                      | _, _ => some (st2, numberOperandErr operator)
                  | .BangEqual => some (st2, .ok (.boolean (!lv.equals rv)))
                  | .EqualEqual => some (st2, .ok (.boolean (lv.equals rv)))
                  | _ => none
      | .ternary condition then_branch else_branch =>
          match visitExpr fuel st condition with
          | none => none
          | some (st1, .error err) => some (st1, .error err)
          | some (st1, .ok condVal) =>
              if isTruthy condVal then visitExpr fuel st1 then_branch
              else visitExpr fuel st1 else_branch
      | .var name =>
          match lookUpVariable st name with
          | none => none
          | some r => some (st, r)
      | .assign name value =>
          match visitExpr fuel st value with
          | none => none
          | some (st1, .error err) => some (st1, .error err)
          | some (st1, .ok v) =>
              match lookupLocals st1.locals name with
              | some distance =>
                  match envAssignAt st1.envs st1.environment distance name v with
                  | none => none
                  | some (envs1, .error err) =>
                      some ({ st1 with envs := envs1 }, .error err)
                  | some (envs1, .ok _) => some ({ st1 with envs := envs1 }, .ok v)
              | none =>
                  match envAssign st1.envs (st1.envs.length + 1) st1.globals name v with
                  | none => none
                  | some (envs1, .error err) =>
                      some ({ st1 with envs := envs1 }, .error err)
                  | some (envs1, .ok _) => some ({ st1 with envs := envs1 }, .ok v)
      | .lambda params body =>
          some (st, .ok (.callable
            (.LoxFunction none (.lambda params body) st.environment false)))
      | .logical left operator right =>
          match visitExpr fuel st left with
          | none => none
          | some (st1, .error err) => some (st1, .error err)
          | some (st1, .ok lv) =>
              if operator.token_type = .Or then
                if isTruthy lv then some (st1, .ok lv)
                else visitExpr fuel st1 right
              else
                if !isTruthy lv then some (st1, .ok lv)
                else visitExpr fuel st1 right
      | .call callee paren arguments =>
          match visitExpr fuel st callee with
          | none => none
          | some (st1, .error err) => some (st1, .error err)
          | some (st1, .ok calleeVal) =>
              match evalArgs fuel st1 arguments with
              | none => none
              | some (st2, .error err) => some (st2, .error err)
              | some (st2, .ok args) =>
                  match calleeVal with
                  | .callable function =>
                      match arityFn st2.classes (st2.classes.length + 1) function with
                      | none => none
                      | some ar =>
                          if args.length = ar then callFn fuel st2 function args
                          else some (st2, .error (.Runtime paren
                            ("Expected " ++ toString ar ++ " arguments but got "
                              ++ toString args.length ++ ".")))
                  | _ => some (st2, .error (.Runtime paren
                      "Can only call functions and classes."))
      | .get object name =>
          match visitExpr fuel st object with
          | none => none
          | some (st1, .error err) => some (st1, .error err)
          | some (st1, .ok ov) =>
              match ov with
              | .inst instId => instanceGet st1 instId name
              | _ => some (st1, .error (.Runtime name
                  "Only instances have properties."))
      | .set object name value =>
          match visitExpr fuel st object with
          | none => none
          | some (st1, .error err) => some (st1, .error err)
          | some (st1, .ok ov) =>
              match ov with
              | .inst instId =>
                  match visitExpr fuel st1 value with
                  | none => none
                  | some (st2, .error err) => some (st2, .error err)
                  | some (st2, .ok v) =>
                      some (instanceSet st2 instId name.lexeme v, .ok v)
              | _ => some (st1, .error (.Runtime name
                  "Only instances have fields."))
      | .this keyword =>
          match lookUpVariable st keyword with
          | none => none
          | some r => some (st, r)

/-- The argument-evaluation loop of `Expr::Call` (left-to-right, `?` on
each). -/
def evalArgs : Nat → InterpState → List Expr →
    Option (InterpState × Except Error (List Object))
  | 0, _, _ => none
  | _ + 1, st, [] => some (st, .ok [])
  | fuel + 1, st, a :: rest =>
      match visitExpr fuel st a with
      | none => none
      | some (st1, .error err) => some (st1, .error err)
      | some (st1, .ok v) =>
          match evalArgs fuel st1 rest with
          | none => none
          | some (st2, .error err) => some (st2, .error err)
          | some (st2, .ok vs) => some (st2, .ok (v :: vs))

/-- `LoxCallable::call`. -/
def callFn : Nat → InterpState → LoxCallable → List Object →
    Option (InterpState × Except Error Object)
  | 0, _, _, _ => none
  | _ + 1, st, .LoxNative impl _, arguments =>
      some (st, .ok (nativeImpl impl arguments))
  | fuel + 1, st, .LoxFunction _ defn closure isInit, arguments =>
      match defn with
      | .lambda params body =>
          let envId := st.envs.length
          let st1 := { st with envs := st.envs ++ [(⟨some closure, []⟩ : EnvData)] }
          let envs2 := (params.zip arguments).foldl
            (fun acc pa => envDefine acc envId pa.1.lexeme pa.2) st1.envs
          let st2 := { st1 with envs := envs2 }
          match executeBlock fuel st2 body envId with
          | none => none
          | some (st3, .ok _) =>
              if isInit then
                match envGetAt st3.envs closure 0 "this" with
                | some v => some (st3, .ok v)
                | none => none
              else some (st3, .ok .nil)
          | some (st3, .error (.Return value)) =>
              if isInit then
                match envGetAt st3.envs closure 0 "this" with
                | some v => some (st3, .ok v)
                | none => none
              else some (st3, .ok value)
          | some (st3, .error err) => some (st3, .error err)
      | _ => none
  | fuel + 1, st, .LoxClass cid, arguments =>
      let instId := st.instances.length
      let st1 := { st with instances := st.instances ++ [⟨cid, []⟩] }
      match findMethod st1.classes (st1.classes.length + 1) cid "init" with
      | some visitInit =>
          match bindFn st1 visitInit (.inst instId) with
          | none => none
          | some (st2, bound) =>
              match callFn fuel st2 bound arguments with
              | none => none
              | some (st3, .error err) => some (st3, .error err)
              | some (st3, .ok _) => some (st3, .ok (.inst instId))
      | none => some (st1, .ok (.inst instId))

/-- `Interpreter::execute_block`: install `environment`, run the
statements, and restore the previous current environment on every exit
path (the IIFE in the source). -/
def executeBlock : Nat → InterpState → List Stmt → Nat →
    Option (InterpState × Except Error Unit)
  | 0, _, _, _ => none
  | fuel + 1, st, statements, envId =>
      let previous := st.environment
      match execStmts fuel { st with environment := envId } statements with
      | none => none
      | some (st1, r) => some ({ st1 with environment := previous }, r)

/-- The statement loop inside `execute_block` (and
`Interpreter::interpret`): run each statement, stopping at the first
error. -/
def execStmts : Nat → InterpState → List Stmt → Option (InterpState × Except Error Unit)
  | 0, _, _ => none
  | _ + 1, st, [] => some (st, .ok ())
  | fuel + 1, st, s :: rest =>
      match visitStmt fuel st s with
      | none => none
      | some (st1, .error err) => some (st1, .error err)
      | some (st1, .ok _) => execStmts fuel st1 rest

/-- `Interpreter::visit_stmt`. -/
def visitStmt : Nat → InterpState → Stmt → Option (InterpState × Except Error Unit)
  | 0, _, _ => none
  | fuel + 1, st, s =>
      match s with
      | .expression expression =>
          match visitExpr fuel st expression with
          | none => none
          | some (st1, .error err) => some (st1, .error err)
          | some (st1, .ok _) => some (st1, .ok ())
      | .print expression =>
          match visitExpr fuel st expression with
          | none => none
          | some (st1, .error err) => some (st1, .error err)
          | some (st1, .ok value) =>
              some ({ st1 with output := st1.output ++ [displayObject st1 value] }, .ok ())
      | .var name initializer =>
          match initializer with
          | some expr =>
              match visitExpr fuel st expr with
              | none => none
              | some (st1, .error err) => some (st1, .error err)
              | some (st1, .ok value) =>
                  let envs1 := envDefine st1.envs st1.environment name.lexeme value
                  some ({ st1 with envs := envs1 }, .ok ())
          | none =>
              let envs1 := envDefine st.envs st.environment name.lexeme .nil
              some ({ st with envs := envs1 }, .ok ())
      | .block statements =>
          let envId := st.envs.length
          let st1 := { st with envs := st.envs ++ [⟨some st.environment, []⟩] }
          executeBlock fuel st1 statements envId
      | .ifStmt condition then_branch else_branch =>
          match visitExpr fuel st condition with
          | none => none
          | some (st1, .error err) => some (st1, .error err)
          | some (st1, .ok condVal) =>
              if isTruthy condVal then
                match visitStmt fuel st1 then_branch with
                | none => none
                | some (st2, .error err) => some (st2, .error err)
                | some (st2, .ok _) => some (st2, .ok ())
              else
                match else_branch with
                | some statement =>
                    match visitStmt fuel st1 statement with
                    | none => none
                    | some (st2, .error err) => some (st2, .error err)
                    | some (st2, .ok _) => some (st2, .ok ())
                | none => some (st1, .ok ())
      | .whileStmt condition body =>
          match visitExpr fuel st condition with
          | none => none
          | some (st1, .error err) => some (st1, .error err)
          | some (st1, .ok condVal) =>
              if isTruthy condVal then
                match visitStmt fuel st1 body with
                | none => none
                | some (st2, .error err) => some (st2, .error err)
                | some (st2, .ok _) => visitStmt fuel st2 (.whileStmt condition body)
              else some (st1, .ok ())
      | .function name defn =>
          let function : LoxCallable :=
            .LoxFunction (some name) defn st.environment false
          let envs1 := envDefine st.envs st.environment name.lexeme (.callable function)
          some ({ st with envs := envs1 }, .ok ())
      | .returnStmt _ value =>
          match value with
          | some returnValue =>
              match visitExpr fuel st returnValue with
              | none => none
              | some (st1, .error err) => some (st1, .error err)
              | some (st1, .ok v) => some (st1, .error (.Return v))
          | none => some (st, .error (.Return .nil))
      | .classStmt name methods =>
          let envs1 := envDefine st.envs st.environment name.lexeme .nil
          let st1 := { st with envs := envs1 }
          let methodMap : List (String × LoxCallable) :=
            methods.foldl (fun acc m =>
              match m with
              | .function mname mdefn =>
                  insertStr acc mname.lexeme
                    (.LoxFunction (some mname) mdefn st1.environment
                      (mname.lexeme = "init" : Bool))
              | _ => acc) []
          let cid := st1.classes.length
          let st2 := { st1 with classes := st1.classes ++ [(⟨name.lexeme, none, methodMap⟩ : LoxClassData)] }
          match envAssign st2.envs (st2.envs.length + 1) st2.environment name
              (.callable (.LoxClass cid)) with
          | none => none
          | some (envs1, .error err) => some ({ st2 with envs := envs1 }, .error err)
          | some (envs1, .ok _) => some ({ st2 with envs := envs1 }, .ok ())

end

/-- `Interpreter::interpret`: run the program's statements in order,
stopping at (and surfacing) the first error. -/
def interpret (fuel : Nat) (st : InterpState) (statements : List Stmt) :
    Option (InterpState × Except Error Unit) :=
  execStmts fuel st statements

/-- `Interpreter::new`: a global environment preloaded with the `clock`
native; `environment` starts equal to `globals`. -/
def initState : InterpState :=
  { envs := [⟨none, [("clock", .callable (.LoxNative .clock 0))]⟩]
    instances := []
    classes := []
    globals := 0
    environment := 0
    locals := []
    output := [] }

/-! ## parser.rs: the `for` desugaring -/

/-- The desugaring performed by `Parser::for_statement` (lines 133–165)
once the clause sub-parsers have produced the optional initializer, the
optional condition (`None` when a `;` immediately follows), the optional
increment and the body: the condition defaults to `Literal(true)`, a
present increment wraps the body in `Block [body, Expression incr]`, the
result is wrapped in `While`, and a present initializer wraps that in
`Block [init, while]`. -/
def forStatementDesugar (initializer : Option Stmt) (condit : Option Expr)
    (increment : Option Expr) (body : Stmt) : Stmt :=
  let condition := match condit with
    | some c => c
    | none => Expr.literal (.boolean true)
  let body1 := match increment with
    | some incExpr => Stmt.block [body, .expression incExpr]
    | none => body
  let body2 := Stmt.whileStmt condition body1
  match initializer with
  | some initStmt => Stmt.block [initStmt, body2]
  | none => body2

/-- The rewrite as the specification words it: `for (init; cond; incr)
body` becomes `{ init; while (cond) { body; incr; } }`, with an omitted
`cond` defaulting to `true` and omitted `init`/`incr` disappearing
(together with the braces they would have introduced). -/
def forRewriteSpec (initializer : Option Stmt) (condit : Option Expr)
    (increment : Option Expr) (body : Stmt) : Stmt :=
  let inner := Stmt.whileStmt (condit.getD (Expr.literal (.boolean true)))
    (match increment with
     | some incExpr => Stmt.block [body, Stmt.expression incExpr]
     | none => body)
  match initializer with
  | some initStmt => Stmt.block [initStmt, inner]
  | none => inner

/-! ## lib.rs: the driver -/

/-- The classification logic of `RustLox::run`, with the outcome of each
pipeline stage as a parameter: `parser.parse()?` propagates a parse
failure first; only then is the scanner's lexical-error flag checked,
then the resolver's error flag, then the interpreter runs. -/
def runClassify (lexicalError : Bool) (parseResult : Except Error (List Stmt))
    (resolveHadError : List Stmt → Bool)
    (interpretResult : List Stmt → Except Error Unit) : Except Error Unit :=
  match parseResult with
  | .error e => .error e
  | .ok statements =>
      if lexicalError then .error .Lexical
      else if resolveHadError statements then .error .Semantic
      else
        match interpretResult statements with
        | .error e => .error e
        | .ok _ => .ok ()

/-- The exit-code mapping of `RustLox::run_file`: a runtime error exits
with 70, every other error with 65, success exits normally (`none`). -/
def exitCodeOf : Except Error Unit → Option Nat
  | .error (.Runtime _ _) => some 70
  | .error _ => some 65
  | .ok _ => none

/-! ## `super` (modelled from the spec)

`Expr::Super` is produced by the later revision of `parser.rs` and
`class.rs` stores the superclass, but `ast.rs`, `resolver.rs` and
`interpreter.rs` under `src/` are the earlier revision without any
`super` handling, so its evaluation and static checks are modelled from
spec §4.3/§4.4. -/

/-- Modelled from the spec: the resolver's `current_class` state
(§4.3: `current_class ∈ {None, Class, Subclass}`); the enclosing-class
context in which a `super` expression is resolved.  `outside` is `None`,
`inClass` is `Class` (a class with no superclass), `inSubclass` is
`Subclass`. -/
inductive ResolverClassType where
  | outside
  | inClass
  | inSubclass
  deriving DecidableEq, Repr

/-- Modelled from the spec: the static check the resolver performs on a
`super` expression (§4.3 and §9: error "Can't use 'super' outside of a
class" when not inside a class, error "Can't use 'super' in a class with
no superclass" when the enclosing class has none); `none` means no
static error. -/
def superUseError : ResolverClassType → Option String
  | .outside => some "Can't use 'super' outside of a class"
  | .inClass => some "Can't use 'super' in a class with no superclass"
  | .inSubclass => none

/-- Modelled from the spec: evaluation of `super.method` (§4.4), the
interpreter arm missing from the `src/` revision.  Compute the depth of
the `super` keyword token from the side table; fetch the superclass at
that depth; fetch the instance bound as `this` from one environment
shallower (depth − 1); find the method on the superclass (runtime error
"Undefined property '<name>'." if absent); return it bound to the
instance.  The lookup, method search and binding reuse the embeddings of
`environment.rs` (`envGetAt`), `class.rs` (`findMethod`) and
`callable.rs` (`bindFn`). -/
def visitSuper (st : InterpState) (keyword method : Token) :
    Option (InterpState × Except Error Object) :=
  match lookupLocals st.locals keyword with
  | none => none
  | some depth =>
      match envGetAt st.envs st.environment depth "super" with
      | some (.callable (.LoxClass sid)) =>
          match envGetAt st.envs st.environment (depth - 1) "this" with
          | some instObj =>
              match findMethod st.classes (st.classes.length + 1) sid method.lexeme with
              | some m =>
                  (bindFn st m instObj).map (fun p => (p.1, .ok (.callable p.2)))
              | none => some (st, .error (.Runtime method
                  ("Undefined property '" ++ method.lexeme ++ "'.")))
          | none => none
      | _ => none

/-! ## Definitions used by the proofs -/

/-- The scan-loop invariant: every emitted token's id is bounded by the
byte cursor, and the ids are strictly increasing along the token
list. -/
def ScanInv (st : ScanState) : Prop :=
  (∀ t ∈ st.tokens, t.id ≤ st.current) ∧
  st.tokens.Pairwise (fun a b => a.id < b.id)

mutual

/-- `true` iff the statement contains no `return` outside nested
function bodies — i.e. executing it can never itself raise the
`Return` signal (a `return` inside a nested `fun` only fires when that
function is called, and is caught by that call's frame). -/
def stmtNoTopReturn : Stmt → Bool
  | .expression _ => true
  | .print _ => true
  | .var _ _ => true
  | .block stmts => stmtsNoTopReturn stmts
  | .ifStmt _ then_branch (some else_branch) =>
      stmtNoTopReturn then_branch && stmtNoTopReturn else_branch
  | .ifStmt _ then_branch none => stmtNoTopReturn then_branch
  | .whileStmt _ body => stmtNoTopReturn body
  | .function _ _ => true
  | .returnStmt _ _ => false
  | .classStmt _ _ => true

/-- `stmtNoTopReturn` over a statement list. -/
def stmtsNoTopReturn : List Stmt → Bool
  | [] => true
  | s :: rest => stmtNoTopReturn s && stmtsNoTopReturn rest

end

/-- A concrete state for the C5 exhibits: a single global environment
binding `x` to `Nil`. -/
def c5ExampleState : InterpState :=
  { envs := [⟨none, [("x", .nil)]⟩]
    instances := []
    classes := []
    globals := 0
    environment := 0
    locals := []
    output := [] }

/-- The token for the global `x` of `c5ExampleState`. -/
def xTok : Token := ⟨.Identifier, "x", 1, 0⟩

/-- The closing-paren token of the C5 example call. -/
def c5Paren : Token := ⟨.RightParen, ")", 1, 3⟩

/-- The C5 example expression: `nil(x = 1)` — a call whose callee is not
callable and whose single argument has a visible side effect. -/
def c5ExampleExpr : Expr :=
  .call (.literal .nil) c5Paren [.assign xTok (.literal (.number 1))]

/-- `c5ExampleState` after the argument assignment `x = 1` ran. -/
def c5MutatedState : InterpState :=
  { c5ExampleState with envs := [⟨none, [("x", .number 1)]⟩] }

/-- The `super` keyword token of the C2 example (resolver-table key). -/
def superTok : Token := ⟨.Super, "super", 1, 42⟩

/-- The method-name token of the C2 example. -/
def greetTok : Token := ⟨.Identifier, "greet", 1, 7⟩

/-- A concrete state for the C2 witness: class `A` with a method
`greet`, subclass `B` of `A`, an instance of `B`, an environment chain
binding `super` two hops up and `this` one hop up from the current
environment, and the side table giving the `super` token depth 2. -/
def superExampleState : InterpState :=
  { envs := [⟨none, [("super", .callable (.LoxClass 0))]⟩,
             ⟨some 0, [("this", .inst 0)]⟩,
             ⟨some 1, []⟩]
    instances := [⟨1, []⟩]
    classes := [⟨"A", none, [("greet", .LoxFunction (some greetTok) (.lambda [] []) 0 false)]⟩,
                ⟨"B", some 0, []⟩]
    globals := 0
    environment := 2
    locals := [(superTok, 2)]
    output := [] }

/-- A concrete state for the C3 witness: one class `C` with no
methods. -/
def c3ExampleState : InterpState :=
  { envs := [⟨none, []⟩]
    instances := []
    classes := [⟨"C", none, []⟩]
    globals := 0
    environment := 0
    locals := []
    output := [] }

/-! ## Theorems -/

/-- The final depth computed by `blockCommentAux` is zero exactly when
the claim-side counter closes the comment; when it does not close, the
whole remaining input was consumed. -/
lemma blockCommentAux_closed (cs : List Char) : ∀ line d, 0 < d →
    ((decide ((blockCommentAux cs line d).2.2.2 = 0) = nestedCommentClosed cs d)
     ∧ (nestedCommentClosed cs d = false → (blockCommentAux cs line d).2.1 = [])) := by
  induction cs with
  | nil =>
      intro line d hd
      refine ⟨?_, fun _ => rfl⟩
      simp only [blockCommentAux, nestedCommentClosed]
      simp only [decide_eq_false_iff_not]
      omega
  | cons c rest ih =>
      intro line d hd
      simp only [blockCommentAux, nestedCommentClosed]
      by_cases hz : commentStep c (rest.head?.getD (Char.ofNat 0)) d = 0
      · simp [hz]
      · have hpos : 0 < commentStep c (rest.head?.getD (Char.ofNat 0)) d :=
          Nat.pos_of_ne_zero hz
        simp [hz]
        exact ih _ _ hpos

/-- Claim C7: the scanner treats `/* … */` as a nested block comment via
a depth counter incremented at each `/*` and decremented at each `*/`:
entering a block comment (a `/` followed by `*` and the body `cs`), no
token is produced; a lexical error ("Unterminated block comment.") is
reported exactly when the counter never reaches zero — i.e. end-of-input
is reached with depth > 0, in which case the whole input was consumed —
and when the counter does reach zero the comment is consumed without any
lexical error. -/
theorem c7_block_comment (cs : List Char) (line : Nat) :
    ((lexOne '/' ('*' :: cs) line).err = !(nestedCommentClosed cs 1))
    ∧ ((lexOne '/' ('*' :: cs) line).tok = none)
    ∧ (nestedCommentClosed cs 1 = false → (lexOne '/' ('*' :: cs) line).rest = []) := by
  obtain ⟨h1, h2⟩ := blockCommentAux_closed cs line 1 (by omega)
  refine ⟨?_, rfl, ?_⟩
  · show (!(decide ((blockCommentAux cs line 1).2.2.2 = 0))) = _
    rw [h1]
  · intro h
    show (blockCommentAux cs line 1).2.1 = []
    exact h2 h

/-- Witness for C7 at the unterminated comment `/*a`. -/
theorem c7_block_comment_witness :
    nestedCommentClosed ['a'] 1 = false
    ∧ (lexOne '/' ['*', 'a'] 1).rest = []
    ∧ (lexOne '/' ['*', 'a'] 1).err = true :=
  ⟨rfl, (c7_block_comment ['a'] 1).2.2 rfl, ((c7_block_comment ['a'] 1).1).trans rfl⟩

/-- One scanner step strictly advances the byte cursor and appends at
most one token, whose id is the new cursor value. -/
lemma scanTokenStep_ids (st : ScanState) (h : st.rest ≠ []) :
    st.current < (scanTokenStep st).current ∧
    ((scanTokenStep st).tokens = st.tokens ∨
      ∃ t : Token, (scanTokenStep st).tokens = st.tokens ++ [t] ∧
        t.id = (scanTokenStep st).current) := by
  match hr : st.rest with
  | [] => exact absurd hr h
  | c :: r =>
    simp only [scanTokenStep, hr]
    rcases hp : (lexOne c r st.line).tok with _ | ⟨tt, lex⟩ <;> simp only [hp]
    · constructor
      · have := Char.utf8Size_pos c
        omega
      · left; exact List.append_nil _
    · constructor
      · have := Char.utf8Size_pos c
        omega
      · right; exact ⟨_, rfl, rfl⟩

/-- One scanner step preserves the id invariant. -/
lemma scanTokenStep_inv (st : ScanState) (h : ScanInv st) : ScanInv (scanTokenStep st) := by
  cases hr : st.rest with
  | nil =>
      have he : scanTokenStep st = st := by simp [scanTokenStep, hr]
      rw [he]; exact h
  | cons c r =>
      obtain ⟨hcur, htoks⟩ := scanTokenStep_ids st (by simp [hr])
      rcases htoks with he | ⟨t, he, hid⟩
      · exact ⟨fun u hu => le_of_lt (lt_of_le_of_lt (h.1 u (by rw [he] at hu; exact hu)) hcur),
          by rw [he]; exact h.2⟩
      · constructor
        · intro u hu
          rw [he] at hu
          rcases List.mem_append.1 hu with hu | hu
          · exact le_of_lt (lt_of_le_of_lt (h.1 u hu) hcur)
          · simp at hu; subst hu; rw [hid]
        · rw [he]
          refine List.pairwise_append.2 ⟨h.2, List.pairwise_singleton _ _, ?_⟩
          intro a ha b hb
          simp at hb; subst hb
          rw [hid]
          exact lt_of_le_of_lt (h.1 a ha) hcur

/-- The scan loop preserves the id invariant. -/
lemma scanLoop_inv (fuel : Nat) : ∀ st : ScanState, ScanInv st → ScanInv (scanLoop fuel st) := by
  induction fuel with
  | zero => intro st h; exact h
  | succ n ih =>
      intro st h
      cases hr : st.rest with
      | nil => simpa [scanLoop, hr] using h
      | cons c r =>
          have he : scanLoop (n + 1) st = scanLoop n (scanTokenStep st) := by
            simp [scanLoop, hr]
          rw [he]
          exact ih _ (scanTokenStep_inv st h)

/-- Claim C8 (amended): the ids of the tokens emitted by a single scan
are strictly increasing among all tokens before the final end-of-file
token, and nondecreasing across the whole stream; the end-of-file
token's id (the final byte cursor) can coincide with the last real
token's id, so strict increase does not extend to it. -/
theorem c8_token_ids_monotone (source : List Char) :
    ((scanTokens source).1.dropLast.Pairwise (fun a b => a.id < b.id))
    ∧ ((scanTokens source).1.Pairwise (fun a b => a.id ≤ b.id)) := by
  have hinv : ScanInv (scanLoop source.length ⟨source, 0, 1, [], false⟩) :=
    scanLoop_inv source.length _ ⟨(by intro t ht; cases ht), List.Pairwise.nil⟩
  constructor
  · show ((scanLoop source.length ⟨source, 0, 1, [], false⟩).tokens ++ [_]).dropLast.Pairwise _
    rw [List.dropLast_concat]
    exact hinv.2
  · refine List.pairwise_append.2
      ⟨hinv.2.imp (fun hab => le_of_lt hab), List.pairwise_singleton _ _, ?_⟩
    intro a ha b hb
    simp at hb; subst hb
    exact hinv.1 a ha

/-- Counterexample to C8 as stated: scanning the one-character source
`+` emits the `+` token with id 1 and the end-of-file token with id 1,
so the ids are not strictly increasing across every pair of distinct
tokens in the stream. -/
theorem c8_counterexample :
    ¬ ((scanTokens "+".toList).1.Pairwise (fun a b => a.id < b.id)) := by
  decide

/-- Claim C1 exhibits (code bug): `Object::equals` evaluated by the
code.  Primitives are structural (`Nil == Nil` holds) and a class
callable equals itself by pointer identity, but the very same instance
value compared with itself yields `false` (there is no `Instance` arm —
the comparison falls into `_ => false`), and likewise the very same
function callable compared with itself yields `false`
(`LoxCallable::equals` handles only `LoxClass`, per its own TODO). -/
theorem c1_identity_equality_fails :
    Object.equals .nil .nil = true
    ∧ Object.equals (.number 3) (.number 3) = true
    ∧ Object.equals (.boolean true) (.boolean true) = true
    ∧ Object.equals (.string "a") (.string "a") = true
    ∧ Object.equals (.callable (.LoxClass 0)) (.callable (.LoxClass 0)) = true
    ∧ Object.equals (.inst 0) (.inst 0) = false
    ∧ Object.equals (.callable (.LoxFunction none (.lambda [] []) 0 false))
        (.callable (.LoxFunction none (.lambda [] []) 0 false)) = false
    ∧ Object.equals (.callable (.LoxNative .clock 0)) (.callable (.LoxNative .clock 0)) = false :=
  ⟨rfl, by decide, rfl, by decide, by decide, rfl, rfl, rfl⟩

/-- Counterexample to C6 as stated: when both the lexical-error flag is
set and the parser fails, `RustLox::run` surfaces the parser's `Syntax`
error (the `parse()?` runs before the lexical-flag check), not
`Lexical` as the claim's class order Lexical ≻ Syntax requires. -/
theorem c6_counterexample :
    runClassify true (.error .Syntax) (fun _ => false) (fun _ => .ok ()) = .error .Syntax
    ∧ runClassify true (.error .Syntax) (fun _ => false) (fun _ => .ok ()) ≠ .error .Lexical := by
  refine ⟨rfl, ?_⟩
  intro h
  rw [show runClassify true (.error .Syntax) (fun _ => false) (fun _ => .ok ())
      = Except.error Error.Syntax from rfl] at h
  injection h with h2
  cases h2

/-- Claim C6 (amended): both a lexical and a syntax error in one run are
reported (the parser always runs on the scanner's token stream), but the
classification surfaced to the driver is the parse failure when one
occurred — the driver checks the parse result before the lexical flag,
so the effective class order is Syntax ≻ Lexical ≻ Semantic; every
non-runtime classification maps to exit code 65 and runtime to 70. -/
theorem c6_error_precedence :
    (∀ (lex : Bool) (e : Error) r i, runClassify lex (.error e) r i = .error e)
    ∧ (∀ (stmts : List Stmt) r i, runClassify true (.ok stmts) r i = .error .Lexical)
    ∧ (∀ t m, exitCodeOf (.error (.Runtime t m)) = some 70)
    ∧ exitCodeOf (.error .Lexical) = some 65
    ∧ exitCodeOf (.error .Syntax) = some 65
    ∧ exitCodeOf (.error .Semantic) = some 65
    ∧ exitCodeOf (.ok ()) = none :=
  ⟨fun _ _ _ _ => rfl, fun _ _ _ => rfl, fun _ _ => rfl, rfl, rfl, rfl, rfl⟩

/-- Claim C9: `Parser::for_statement` produces at parse time exactly the
AST of the rewrite `{ init; while (cond) { body; incr; } }` described by
the spec (omitted `cond` becomes the literal `true`, omitted
`init`/`incr` disappear), so running the `for` statement is literally
running the rewrite: the interpreter's behaviour on the two is equal for
every fuel and state. -/
theorem c9_for_desugaring :
    (∀ initializer condit increment body,
      forStatementDesugar initializer condit increment body =
        forRewriteSpec initializer condit increment body)
    ∧ (∀ fuel st initializer condit increment body,
      visitStmt fuel st (forStatementDesugar initializer condit increment body) =
        visitStmt fuel st (forRewriteSpec initializer condit increment body)) := by
  have h : ∀ i c inc b, forStatementDesugar i c inc b = forRewriteSpec i c inc b := by
    intro i c inc b
    cases i <;> cases c <;> cases inc <;> rfl
  exact ⟨h, fun fuel st i c inc b => by rw [h]⟩

/-- `execute_block` restores the previous current environment no matter
how the body ended. -/
lemma executeBlock_env (fuel : Nat) (st : InterpState) (stmts : List Stmt)
    (envId : Nat) (out : InterpState × Except Error Unit)
    (h : executeBlock fuel st stmts envId = some out) :
    out.1.environment = st.environment := by
  match fuel with
  | 0 => simp [executeBlock] at h
  | fuel + 1 =>
      rw [show executeBlock (fuel + 1) st stmts envId =
        (match execStmts fuel { st with environment := envId } stmts with
         | none => none
         | some (st1, r) => some ({ st1 with environment := st.environment }, r)) from by
          simp [executeBlock]] at h
      cases he : execStmts fuel { st with environment := envId } stmts with
      | none => rw [he] at h; cases h
      | some p =>
          rw [he] at h
          cases h
          rfl

/-- Claim C4: executing a block installs a freshly created child
environment of the current one (a new store slot whose `enclosing` is
the current environment, handed to `execute_block` as the environment to
run in), and on every completed execution — normal, runtime error and
`Return` alike — the interpreter's current-environment pointer
afterwards equals its value before. -/
theorem c4_block_restores_environment (fuel : Nat) (st : InterpState)
    (stmts : List Stmt) :
    (visitStmt (fuel + 1) st (.block stmts) =
      executeBlock fuel { st with envs := st.envs ++ [⟨some st.environment, []⟩] }
        stmts st.envs.length)
    ∧ (∀ out, visitStmt (fuel + 1) st (.block stmts) = some out →
        out.1.environment = st.environment) := by
  have hdef : visitStmt (fuel + 1) st (.block stmts) =
      executeBlock fuel { st with envs := st.envs ++ [⟨some st.environment, []⟩] }
        stmts st.envs.length := by
    simp [visitStmt]
  refine ⟨hdef, ?_⟩
  intro out h
  rw [hdef] at h
  exact executeBlock_env fuel
    { st with envs := st.envs ++ [⟨some st.environment, []⟩] } stmts st.envs.length out h

/-- Witness for C4: executing an empty block from the initial state
completes and leaves the current environment unchanged. -/
theorem c4_block_restores_environment_witness :
    (visitStmt 3 initState (.block []) =
      some ({ initState with envs := initState.envs ++ [⟨some 0, []⟩] }, .ok ()))
    ∧ ({ initState with envs := initState.envs ++ [⟨some 0, []⟩] } : InterpState).environment
        = initState.environment := by
  have h : visitStmt 3 initState (.block []) =
      some ({ initState with envs := initState.envs ++ [⟨some 0, []⟩] }, .ok ()) := by
    simp [visitStmt, executeBlock, execStmts, initState]
  exact ⟨h, (c4_block_restores_environment 2 initState []).2 _ h⟩

lemma envGet_error_runtime (envs : List EnvData) :
    ∀ fuel envId name e, envGet envs fuel envId name = some (.error e) →
      ∃ t m, e = .Runtime t m := by
  intro fuel
  induction fuel with
  | zero => intro envId name e h; simp [envGet] at h
  | succ n ih =>
      intro envId name e h
      simp only [envGet] at h
      split at h
      · cases h
      · split at h
        · injection h with h1; cases h1
        · split at h
          · exact ih _ name e h
          · injection h with h1
            injection h1 with h2
            exact ⟨_, _, h2.symm⟩

lemma envAssign_error_runtime (envs : List EnvData) :
    ∀ fuel envId name value p, envAssign envs fuel envId name value = some p →
      ∀ e, p.2 = .error e → ∃ t m, e = .Runtime t m := by
  intro fuel
  induction fuel with
  | zero => intro envId name value p h; simp [envAssign] at h
  | succ n ih =>
      intro envId name value p h
      simp only [envAssign] at h
      split at h
      · cases h
      · split at h
        · cases h
          intro e he
          cases he
        · split at h
          · exact ih _ name value p h
          · cases h
            intro e he
            injection he with h2
            exact ⟨_, _, h2.symm⟩

lemma envAssignAt_error_runtime (envs : List EnvData) (envId distance : Nat)
    (name : Token) (value : Object) (p : List EnvData × Except Error Unit)
    (h : envAssignAt envs envId distance name value = some p) :
    ∀ e, p.2 = .error e → ∃ t m, e = .Runtime t m := by
  unfold envAssignAt at h
  split at h
  · exact envAssign_error_runtime envs _ envId name value p h
  · cases ha : ancestorId envs envId distance with
    | none => rw [ha] at h; cases h
    | some a =>
        rw [ha] at h
        exact envAssign_error_runtime envs _ a name value p h

lemma lookUpVariable_error_runtime (st : InterpState) (name : Token) (e : Error)
    (h : lookUpVariable st name = some (.error e)) : ∃ t m, e = .Runtime t m := by
  unfold lookUpVariable at h
  split at h
  · cases hg : envGetAt st.envs st.environment _ name.lexeme with
    | none => rw [hg] at h; cases h
    | some v => rw [hg] at h; simp at h
  · exact envGet_error_runtime st.envs _ st.globals name e h

lemma instanceGet_error_runtime (st : InterpState) (instId : Nat) (name : Token)
    (p : InterpState × Except Error Object) (h : instanceGet st instId name = some p) :
    ∀ e, p.2 = .error e → ∃ t m, e = .Runtime t m := by
  unfold instanceGet at h
  split at h
  · cases h
  · split at h
    · cases h
      intro e he
      cases he
    · split at h
      · cases hb : bindFn st _ (.inst instId) with
        | none => rw [hb] at h; cases h
        | some q =>
            rw [hb] at h
            cases h
            intro e he
            cases he
      · cases h
        intro e he
        injection he with h2
        exact ⟨_, _, h2.symm⟩

lemma callFn_noRet : ∀ fuel st c as st1 e,
    callFn fuel st c as = some (st1, .error e) → ∀ v, e ≠ .Return v := by
  intro fuel
  induction fuel with
  | zero => intro st c as st1 e h; simp [callFn] at h
  | succ n ih =>
      intro st c as st1 e h
      match c with
      | .LoxNative impl ar => simp only [callFn] at h; simp at h
      | .LoxFunction nm defn cl isInit =>
          simp only [callFn] at h
          split at h
          · -- lambda arm
            split at h
            · cases h
            · -- ok branch
              split at h
              · split at h
                · simp at h
                · cases h
              · simp at h
            · -- Return branch
              split at h
              · split at h
                · simp at h
                · cases h
              · simp at h
            · -- plain error branch
              simp at h
              obtain ⟨h1, h2⟩ := h
              subst h2
              intro v hv
              subst hv
              simp_all
          · cases h
      | .LoxClass cid =>
          simp only [callFn] at h
          split at h
          · -- findMethod some
            split at h
            · cases h
            · split at h
              · cases h
              · -- inner call error propagated
                simp at h
                obtain ⟨h1, h2⟩ := h
                subst h2
                intro v hv
                exact ih _ _ _ _ _ (by assumption) v hv
              · simp at h
          · simp at h

lemma notRet_ok {α : Type} (x : α) :
    ∀ v : Object, (Except.ok x : Except Error α) ≠ .error (.Return v) := by
  intro v hv; cases hv

lemma notRet_runtime {α : Type} (t : Token) (m : String) :
    ∀ v : Object, (Except.error (.Runtime t m) : Except Error α) ≠ .error (.Return v) := by
  intro v hv; injection hv with h2; cases h2

lemma notRet_of_runtime {α : Type} {e : Error} (he : ∃ t m, e = .Runtime t m) :
    ∀ v : Object, (Except.error e : Except Error α) ≠ .error (.Return v) := by
  obtain ⟨t, m, rfl⟩ := he
  intro v hv
  injection hv with h2
  cases h2

lemma callFn_noRetE (fuel : Nat) (st : InterpState) (c : LoxCallable)
    (as : List Object) (st1 : InterpState) (r : Except Error Object)
    (h : callFn fuel st c as = some (st1, r)) :
    ∀ v, r ≠ .error (.Return v) := by
  intro v hv
  subst hv
  exact callFn_noRet fuel st c as st1 _ h v rfl

lemma lookUpVariable_noRetE (st : InterpState) (name : Token) (r : Except Error Object)
    (h : lookUpVariable st name = some r) : ∀ v, r ≠ .error (.Return v) := by
  intro v hv
  subst hv
  obtain ⟨t, m, hm⟩ := lookUpVariable_error_runtime st name _ h
  cases hm

lemma instanceGet_noRetE (st : InterpState) (instId : Nat) (name : Token)
    (st2 : InterpState) (r : Except Error Object)
    (h : instanceGet st instId name = some (st2, r)) :
    ∀ v, r ≠ .error (.Return v) := by
  intro v hv
  subst hv
  obtain ⟨t, m, hm⟩ := instanceGet_error_runtime st instId name _ h _ rfl
  cases hm

lemma errNe_of_exceptNe {α : Type} {e : Error}
    (h : ∀ v : Object, (Except.error e : Except Error α) ≠ .error (.Return v)) :
    ∀ v : Object, e ≠ .Return v := by
  intro v hv
  exact (h v (by rw [hv])).elim

lemma notRet_of_errNe {α : Type} {e : Error} (h : ∀ v : Object, e ≠ .Return v) :
    ∀ v : Object, (Except.error e : Except Error α) ≠ .error (.Return v) := by
  intro v hv
  injection hv with h2
  exact h v h2

lemma noRetAux : ∀ fuel : Nat,
    (∀ st e st1 r, visitExpr fuel st e = some (st1, r) →
      ∀ v, r ≠ .error (.Return v))
    ∧ (∀ st es st1 r, evalArgs fuel st es = some (st1, r) →
      ∀ v, r ≠ .error (.Return v))
    ∧ (∀ st s st1 r, stmtNoTopReturn s = true → visitStmt fuel st s = some (st1, r) →
      ∀ v, r ≠ .error (.Return v))
    ∧ (∀ st ss st1 r, stmtsNoTopReturn ss = true → execStmts fuel st ss = some (st1, r) →
      ∀ v, r ≠ .error (.Return v))
    ∧ (∀ st ss envId st1 r, stmtsNoTopReturn ss = true →
      executeBlock fuel st ss envId = some (st1, r) →
      ∀ v, r ≠ .error (.Return v)) := by
  intro fuel
  induction fuel with
  | zero =>
      refine ⟨?_, ?_, ?_, ?_, ?_⟩
      · intro st e st1 r h; simp [visitExpr] at h
      · intro st es st1 r h; simp [evalArgs] at h
      · intro st s st1 r _ h; simp [visitStmt] at h
      · intro st ss st1 r _ h; simp [execStmts] at h
      · intro st ss envId st1 r _ h; simp [executeBlock] at h
  | succ n ih =>
      obtain ⟨ihE, ihA, ihS, ihL, ihB⟩ := ih
      refine ⟨?_, ?_, ?_, ?_, ?_⟩
      · -- visitExpr never yields the Return signal
        intro st e st1 r h
        cases e <;> simp only [visitExpr] at h <;>
          iterate 8 (all_goals (try split at h))
        all_goals (try cases h)
        all_goals first
          | exact notRet_ok _
          | exact notRet_runtime _ _
          | exact ihE _ _ _ _ (by assumption)
          | exact ihA _ _ _ _ (by assumption)
          | exact callFn_noRetE _ _ _ _ _ _ (by assumption)
          | exact lookUpVariable_noRetE _ _ _ (by assumption)
          | exact instanceGet_noRetE _ _ _ _ _ (by assumption)
          | exact notRet_of_runtime (envAssignAt_error_runtime _ _ _ _ _ _ (by assumption) _ rfl)
          | exact notRet_of_runtime (envAssign_error_runtime _ _ _ _ _ _ (by assumption) _ rfl)
          | exact notRet_of_errNe (errNe_of_exceptNe (ihA _ _ _ _ (by assumption)))
      · -- evalArgs never yields the Return signal
        intro st es st1 r h
        cases es <;> simp only [evalArgs] at h <;>
          iterate 4 (all_goals (try split at h))
        all_goals (try cases h)
        all_goals first
          | exact notRet_ok _
          | exact ihE _ _ _ _ (by assumption)
          | exact ihA _ _ _ _ (by assumption)
          | exact notRet_of_errNe (errNe_of_exceptNe (ihE _ _ _ _ (by assumption)))
      · -- visitStmt on a return-free statement never yields the Return signal
        intro st s st1 r hns h
        cases s with
        | expression e =>
            simp only [visitStmt] at h
            iterate 4 (all_goals (try split at h))
            all_goals (try cases h)
            all_goals first
              | exact notRet_ok _
              | exact notRet_of_errNe (errNe_of_exceptNe (ihE _ _ _ _ (by assumption)))
        | print e =>
            simp only [visitStmt] at h
            iterate 4 (all_goals (try split at h))
            all_goals (try cases h)
            all_goals first
              | exact notRet_ok _
              | exact notRet_of_errNe (errNe_of_exceptNe (ihE _ _ _ _ (by assumption)))
        | var name initializer =>
            simp only [visitStmt] at h
            iterate 4 (all_goals (try split at h))
            all_goals (try cases h)
            all_goals first
              | exact notRet_ok _
              | exact notRet_of_errNe (errNe_of_exceptNe (ihE _ _ _ _ (by assumption)))
        | block stmts =>
            simp only [visitStmt] at h
            exact ihB _ _ _ _ _ hns h
        | ifStmt condition then_branch else_branch =>
            cases else_branch with
            | none =>
                simp only [visitStmt] at h
                iterate 4 (all_goals (try split at h))
                all_goals (try cases h)
                all_goals first
                  | exact notRet_ok _
                  | exact notRet_of_errNe (errNe_of_exceptNe (ihE _ _ _ _ (by assumption)))
                  | exact ihS _ then_branch _ _ hns (by assumption)
            | some els =>
                simp only [stmtNoTopReturn, Bool.and_eq_true] at hns
                simp only [visitStmt] at h
                iterate 4 (all_goals (try split at h))
                all_goals (try cases h)
                all_goals first
                  | exact notRet_ok _
                  | exact notRet_of_errNe (errNe_of_exceptNe (ihE _ _ _ _ (by assumption)))
                  | exact ihS _ then_branch _ _ hns.1 (by assumption)
                  | exact ihS _ els _ _ hns.2 (by assumption)
        | whileStmt condition body =>
            simp only [visitStmt] at h
            iterate 4 (all_goals (try split at h))
            all_goals (try cases h)
            all_goals first
              | exact notRet_ok _
              | exact notRet_of_errNe (errNe_of_exceptNe (ihE _ _ _ _ (by assumption)))
              | exact ihS _ body _ _ hns (by assumption)
              | exact ihS _ (.whileStmt condition body) _ _ hns (by assumption)
        | function name defn =>
            simp only [visitStmt] at h
            cases h
            exact notRet_ok _
        | returnStmt keyword value =>
            exact absurd hns (by simp [stmtNoTopReturn])
        | classStmt name methods =>
            simp only [visitStmt] at h
            iterate 4 (all_goals (try split at h))
            all_goals (try cases h)
            all_goals first
              | exact notRet_ok _
              | exact notRet_of_runtime (envAssign_error_runtime _ _ _ _ _ _ (by assumption) _ rfl)
      · -- execStmts on return-free statements never yields the Return signal
        intro st ss st1 r hns h
        cases ss with
        | nil =>
            simp only [execStmts] at h
            cases h
            exact notRet_ok _
        | cons s rest =>
            simp only [stmtsNoTopReturn, Bool.and_eq_true] at hns
            simp only [execStmts] at h
            iterate 4 (all_goals (try split at h))
            all_goals (try cases h)
            all_goals first
              | exact notRet_ok _
              | exact ihS _ s _ _ hns.1 (by assumption)
              | exact ihL _ rest _ _ hns.2 (by assumption)
      · -- executeBlock on return-free statements never yields the Return signal
        intro st ss envId st1 r hns h
        simp only [executeBlock] at h
        iterate 2 (all_goals (try split at h))
        all_goals (try cases h)
        all_goals first
          | exact ihL _ ss _ _ hns (by assumption)

/-- Claim C3: calling a class allocates a fresh instance (its index is
the previous length of the instance store) and the call site observes
exactly that instance whenever the call completes with a value,
regardless of what `init` returned; with no `init` the result is fully
characterised; and a completed call of a bound initializer — including a
body that runs a bare `return;` or falls off its end — yields the value
read back from the closure's `this` binding. -/
theorem c3_construction :
    (∀ fuel st cid args st2 v,
      callFn (fuel + 1) st (.LoxClass cid) args = some (st2, .ok v) →
      v = .inst st.instances.length)
    ∧ (∀ fuel st cid args,
      findMethod st.classes (st.classes.length + 1) cid "init" = none →
      callFn (fuel + 1) st (.LoxClass cid) args =
        some ({ st with instances := st.instances ++ [⟨cid, []⟩] },
          .ok (.inst st.instances.length)))
    ∧ (∀ fuel st nm params body cl args st2 v,
      callFn fuel st (.LoxFunction nm (.lambda params body) cl true) args
        = some (st2, .ok v) →
      envGetAt st2.envs cl 0 "this" = some v) := by
  refine ⟨?_, ?_, ?_⟩
  · intro fuel st cid args st2 v h
    simp only [callFn] at h
    split at h
    · -- findMethod = some
      split at h
      · -- bindFn none? order depends
        cases h
      · split at h
        · cases h
        · cases h
        · injection h with h1
          injection h1 with h1a h1b
          injection h1b with h2
          exact h2.symm
    · injection h with h1
      injection h1 with h1a h1b
      injection h1b with h2
      exact h2.symm
  · intro fuel st cid args hfm
    simp only [callFn]
    split
    · next heq =>
        rw [hfm] at heq
        cases heq
    · rfl
  · intro fuel st nm params body cl args st2 v h
    match fuel with
    | 0 => simp [callFn] at h
    | fuel + 1 =>
        simp only [callFn] at h
        split at h
        · -- executeBlock none
          cases h
        · -- ok branch: the isInitializer test, then the closure read
          split at h
          · split at h
            · next w hg =>
                injection h with h1
                injection h1 with h1a h1b
                subst h1a
                injection h1b with h2
                subst h2
                exact hg
            · cases h
          · next hf => exact absurd trivial hf
        · -- Return branch
          split at h
          · split at h
            · next w hg =>
                injection h with h1
                injection h1 with h1a h1b
                subst h1a
                injection h1b with h2
                subst h2
                exact hg
            · cases h
          · next hf => exact absurd trivial hf
        · -- other error
          cases h

end Rustlox
namespace Rustlox

/-- Witness for C3: calling the method-less class `C` of
`c3ExampleState` allocates instance 0 and returns it. -/
theorem c3_construction_witness :
    findMethod c3ExampleState.classes (c3ExampleState.classes.length + 1) 0 "init" = none
    ∧ callFn 1 c3ExampleState (.LoxClass 0) [] =
        some ({ c3ExampleState with instances := c3ExampleState.instances ++ [⟨0, []⟩] },
          .ok (.inst c3ExampleState.instances.length)) :=
  ⟨rfl, c3_construction.2.1 0 c3ExampleState 0 [] rfl⟩

/-- Claim C2 (modelled from the spec; see `visitSuper`): evaluating
`super.method` computes the depth of the `super` token from the side
table, fetches the superclass at that depth and the instance bound as
`this` one environment shallower, and (i) raises the runtime error
"Undefined property '<name>'." when the method is absent from the
superclass chain, (ii) otherwise returns the method bound to the
instance — a callable whose closure is a fresh environment binding
`this` to that instance; and the two misuse cases are static errors with
the spec's messages. -/
theorem c2_super_method :
    (∀ (st : InterpState) (kw mt : Token) (d sid : Nat) (instObj : Object),
      lookupLocals st.locals kw = some d →
      envGetAt st.envs st.environment d "super" = some (.callable (.LoxClass sid)) →
      envGetAt st.envs st.environment (d - 1) "this" = some instObj →
      ((findMethod st.classes (st.classes.length + 1) sid mt.lexeme = none →
          visitSuper st kw mt = some (st, .error (.Runtime mt
            ("Undefined property '" ++ mt.lexeme ++ "'."))))
       ∧ (∀ nm defn cl isI,
          findMethod st.classes (st.classes.length + 1) sid mt.lexeme
            = some (.LoxFunction nm defn cl isI) →
          visitSuper st kw mt = some
            ({ st with envs := st.envs ++ [⟨some cl, [("this", instObj)]⟩] },
             .ok (.callable (.LoxFunction nm defn st.envs.length isI)))
          ∧ envGetAt (st.envs ++ [⟨some cl, [("this", instObj)]⟩]) st.envs.length 0 "this"
              = some instObj)))
    ∧ superUseError .outside = some "Can't use 'super' outside of a class"
    ∧ superUseError .inClass = some "Can't use 'super' in a class with no superclass"
    ∧ superUseError .inSubclass = none := by
  refine ⟨?_, rfl, rfl, rfl⟩
  intro st kw mt d sid instObj hlk hsup hthis
  constructor
  · intro hfm
    simp only [visitSuper, hlk, hsup, hthis, hfm]
  · intro nm defn cl isI hfm
    constructor
    · simp only [visitSuper, hlk, hsup, hthis, hfm, bindFn]
      rfl
    · simp only [envGetAt, if_pos rfl, List.getElem?_concat_length, Option.bind_some]
      simp [lookupStr]

/-- Witness for C2 at `superExampleState`: `super.greet` inside the
subclass `B` returns `A`'s `greet` bound to the instance. -/
theorem c2_super_method_witness :
    visitSuper superExampleState superTok greetTok = some
      ({ superExampleState with
          envs := superExampleState.envs ++ [⟨some 0, [("this", .inst 0)]⟩] },
       .ok (.callable (.LoxFunction (some greetTok) (.lambda [] [])
          superExampleState.envs.length false))) :=
  ((c2_super_method.1 superExampleState superTok greetTok 2 0 (.inst 0) rfl rfl rfl).2
    (some greetTok) (.lambda [] []) 0 false rfl).1

/-- Counterexample to C5 as stated: evaluating `nil(x = 1)` from
`c5ExampleState` raises "Can only call functions and classes.", but the
final state shows the argument assignment `x = 1` ran first (`x` was
`Nil` before and is `1` after), so the error is not raised before the
argument expressions are evaluated. -/
theorem c5_counterexample :
    visitExpr 5 c5ExampleState c5ExampleExpr =
      some (c5MutatedState, .error (.Runtime c5Paren "Can only call functions and classes."))
    ∧ envGetAt c5ExampleState.envs 0 0 "x" = some .nil
    ∧ envGetAt c5MutatedState.envs 0 0 "x" = some (.number 1) := by
  refine ⟨?_, rfl, rfl⟩
  simp [visitExpr, evalArgs, c5ExampleState, c5ExampleExpr, c5MutatedState, xTok, c5Paren,
    lookupLocals, envAssign, envGetAt, lookupStr, insertStr]

/-- Claim C5 (amended): evaluating a call first evaluates the callee,
then evaluates the arguments left-to-right; only after the arguments
have been evaluated is the runtime error "Can only call functions and
classes." raised when the callee is not a Callable; otherwise "Expected
N arguments but got M." is raised exactly when the argument count
differs from the callable's arity, and on a match the callable is
invoked. -/
theorem c5_call_order :
    ∀ fuel st callee paren args st1 cv st2 avs,
      visitExpr fuel st callee = some (st1, .ok cv) →
      evalArgs fuel st1 args = some (st2, .ok avs) →
      (((∀ f, cv ≠ .callable f) →
          visitExpr (fuel + 1) st (.call callee paren args) =
            some (st2, .error (.Runtime paren "Can only call functions and classes.")))
       ∧ (∀ f, cv = .callable f →
          ∀ ar, arityFn st2.classes (st2.classes.length + 1) f = some ar →
            ((avs.length ≠ ar →
              visitExpr (fuel + 1) st (.call callee paren args) =
                some (st2, .error (.Runtime paren
                  ("Expected " ++ toString ar ++ " arguments but got "
                    ++ toString avs.length ++ "."))))
             ∧ (avs.length = ar →
               visitExpr (fuel + 1) st (.call callee paren args) = callFn fuel st2 f avs)))) := by
  intro fuel st callee paren args st1 cv st2 avs hc ha
  constructor
  · intro hnc
    cases cv with
    | callable f => exact absurd rfl (hnc f)
    | nil => simp only [visitExpr, hc, ha]
    | string s => simp only [visitExpr, hc, ha]
    | number n => simp only [visitExpr, hc, ha]
    | boolean b => simp only [visitExpr, hc, ha]
    | inst i => simp only [visitExpr, hc, ha]
  · intro f hf ar har
    subst hf
    constructor
    · intro hne
      simp only [visitExpr, hc, ha, har]
      rw [if_neg hne]
    · intro heq
      simp only [visitExpr, hc, ha, har]
      rw [if_pos heq]

/-- Witness for C5: the amended theorem applied to the concrete call
`nil(x = 1)`. -/
theorem c5_call_order_witness :
    visitExpr 5 c5ExampleState c5ExampleExpr =
      some (c5MutatedState, .error (.Runtime c5Paren "Can only call functions and classes.")) := by
  have hc : visitExpr 4 c5ExampleState (.literal .nil) = some (c5ExampleState, .ok .nil) := by
    simp [visitExpr]
  have ha : evalArgs 4 c5ExampleState [.assign xTok (.literal (.number 1))]
      = some (c5MutatedState, .ok [.number 1]) := by
    simp [evalArgs, visitExpr, c5ExampleState, c5MutatedState, xTok, lookupLocals,
      envAssign, lookupStr, insertStr]
  exact (c5_call_order 4 c5ExampleState (.literal .nil) c5Paren
    [.assign xTok (.literal (.number 1))] c5ExampleState .nil c5MutatedState [.number 1]
    hc ha).1 (fun f hf => by cases hf)

/-- Claim C10: a completed call of a user-defined non-initializer
function whose body is return-free (contains no `return` outside nested
function bodies, hence never executes one) evaluates to `Nil` whenever
it produces a value. -/
theorem c10_missing_return_yields_nil :
    ∀ fuel st nm params body cl args st1 r,
      stmtsNoTopReturn body = true →
      callFn fuel st (.LoxFunction nm (.lambda params body) cl false) args
        = some (st1, r) →
      ∀ v, r = .ok v → v = .nil := by
  intro fuel st nm params body cl args st1 r hb h v hv
  match fuel with
  | 0 => simp [callFn] at h
  | n + 1 =>
      simp only [callFn] at h
      split at h
      · cases h
      · -- body completed normally: the result is Nil
        cases h
        injection hv with h2
        exact h2.symm
      · -- a Return signal escaped the body: impossible for a return-free body
        exact absurd (by assumption)
          (fun heq => ((noRetAux n).2.2.2.2 _ _ _ _ _ hb heq _ rfl).elim)
      · -- a runtime error escaped: contradicts r = .ok v
        cases h
        cases hv

/-- Witness for C10: a function whose body is a lone expression
statement returns `Nil`. -/
theorem c10_missing_return_yields_nil_witness :
    stmtsNoTopReturn [Stmt.expression (.literal (.number 5))] = true
    ∧ Object.nil = Object.nil := by
  have hcall : callFn 5 initState
      (.LoxFunction none (.lambda [] [Stmt.expression (.literal (.number 5))]) 0 false) []
      = some ({ initState with envs := initState.envs ++ [⟨some 0, []⟩] }, .ok .nil) := by
    simp [callFn, executeBlock, execStmts, visitStmt, visitExpr, envDefine, initState]
  exact ⟨rfl, c10_missing_return_yields_nil 5 initState none []
    [Stmt.expression (.literal (.number 5))] 0 [] _ _ rfl hcall .nil rfl⟩

end Rustlox
